import Mathlib

namespace SimapSync

/-- Model of a Python/JSON value as handled by the worker; `null` stands for
Python `None`. -/
inductive PyVal where
  | null : PyVal
  | bool (b : Bool) : PyVal
  | num (n : Int) : PyVal
  | str (s : String) : PyVal
  | arr (elems : List PyVal) : PyVal
  | obj (fields : List (String × PyVal)) : PyVal

/-- Python truthiness of a value, as in `if x:`. -/
def PyVal.truthy : PyVal → Bool
  | .null => false
  | .bool b => b
  | .num n => n != 0
  | .str s => s != ""
  | .arr [] => false
  | .arr (_ :: _) => true
  | .obj [] => false
  | .obj (_ :: _) => true

/-- Whether a value is Python `None`. -/
def PyVal.isNull : PyVal → Bool
  | .null => true
  | _ => false

/-- Python `str(x)` as used in the f-string building `source_url`. -/
def PyVal.pyStr : PyVal → String
  | .null => "None"
  | .bool true => "True"
  | .bool false => "False"
  | .num n => toString n
  | .str s => s
  | .arr _ => "[...]"
  | .obj _ => "dict"

/-- Python `x or d`. -/
def pyOr (x d : PyVal) : PyVal := if x.truthy then x else d

/-- Dictionary view of a value; Python raises `AttributeError` when `.get` is
called on a non-dict, which the embedding reports as `none`. -/
def asObj? : PyVal → Option (List (String × PyVal))
  | .obj fs => some fs
  | _ => none

/-- `d.get(k)` on a dictionary (missing key yields `None`). -/
def objGet (fs : List (String × PyVal)) (k : String) : PyVal :=
  (fs.lookup k).getD PyVal.null

/-- `d.get(k, default)` on a dictionary (default used only when the key is
absent, not when its value is explicitly null). -/
def objGetD (fs : List (String × PyVal)) (k : String) (d : PyVal) : PyVal :=
  (fs.lookup k).getD d

/-- Primary-language selection of `transform_project`: first language in
priority order `de, fr, it, en` whose title variant is truthy, default `de`. -/
def lang_pref (tfs : List (String × PyVal)) : String :=
  if (objGet tfs "de").truthy then "de"
  else if (objGet tfs "fr").truthy then "fr"
  else if (objGet tfs "it").truthy then "it"
  else if (objGet tfs "en").truthy then "en"
  else "de"

/-- `SimapSyncWorker.transform_project`: maps a raw SIMAP project to the
tenders-table schema. `now` is the ISO timestamp `datetime.now(timezone.utc)`
read by the source at call time. `none` models an uncaught Python exception
(`.get` on a non-dict). -/
def transform_project (now : String) (project : PyVal) : Option (List (String × PyVal)) := do
  let pfs ← asObj? project
  let oafs ← asObj? (pyOr (objGet pfs "orderAddress") (PyVal.obj []))
  let tfs ← asObj? (objGetD pfs "title" (PyVal.obj []))
  pure [("external_id", objGet pfs "id"),
    ("source", PyVal.str "simap"),
    ("source_url", PyVal.str ("https://www.simap.ch/project/" ++ (objGet pfs "projectNumber").pyStr)),
    ("title", objGet pfs "title"),
    ("project_number", objGet pfs "projectNumber"),
    ("publication_number", objGet pfs "publicationNumber"),
    ("project_type", objGet pfs "projectType"),
    ("project_sub_type", objGet pfs "projectSubType"),
    ("process_type", objGet pfs "processType"),
    ("lots_type", objGet pfs "lotsType"),
    ("authority", objGet pfs "procOfficeName"),
    ("publication_date", objGet pfs "publicationDate"),
    ("pub_type", objGet pfs "pubType"),
    ("corrected", objGetD pfs "corrected" (PyVal.bool false)),
    ("region", objGet oafs "cantonId"),
    ("country", objGetD oafs "countryId" (PyVal.str "CH")),
    ("order_address",
      if (pyOr (objGet pfs "orderAddress") (PyVal.obj [])).truthy then
        pyOr (objGet pfs "orderAddress") (PyVal.obj [])
      else PyVal.null),
    ("language", PyVal.str (lang_pref tfs)),
    ("raw_data", project),
    ("updated_at", PyVal.str now),
    ("publication_id", objGet pfs "publicationId")]

/-- The fixed key list of the record built by `transform_project`. -/
def tender_schema_keys : List String :=
  ["external_id", "source", "source_url", "title", "project_number",
   "publication_number", "project_type", "project_sub_type", "process_type",
   "lots_type", "authority", "publication_date", "pub_type", "corrected",
   "region", "country", "order_address", "language", "raw_data", "updated_at",
   "publication_id"]

/-- `SimapSyncWorker.transform_publication_details`: maps a raw detail
response to the extended tenders-table columns. -/
def transform_publication_details (now : String) (details : PyVal) :
    Option (List (String × PyVal)) := do
  let dfs ← asObj? details
  let pifs ← asObj? (pyOr (objGet dfs "project-info") (PyVal.obj []))
  let procfs ← asObj? (pyOr (objGet dfs "procurement") (PyVal.obj []))
  let termsfs ← asObj? (pyOr (objGet dfs "terms") (PyVal.obj []))
  let datesfs ← asObj? (pyOr (objGet dfs "dates") (PyVal.obj []))
  let critfs ← asObj? (pyOr (objGet dfs "criteria") (PyVal.obj []))
  let oofs ← asObj? (pyOr (objGet datesfs "offerOpening") (PyVal.obj []))
  let order_address := pyOr (objGet procfs "orderAddress") (PyVal.obj [])
  let regionCountry ←
    if order_address.truthy then
      (asObj? order_address).map (fun oafs => (objGet oafs "cantonId", objGet oafs "countryId"))
    else
      some (PyVal.null, PyVal.null)
  let cpv_code := objGet procfs "cpvCode"
  let cpv_codes : PyVal := if cpv_code.truthy then PyVal.arr [cpv_code] else PyVal.arr []
  pure [("deadline", objGet datesfs "offerDeadline"),
    ("offer_opening", objGet oofs "dateTime"),
    ("qna_deadlines", pyOr (objGetD datesfs "qnas" (PyVal.arr [])) (PyVal.arr [])),
    ("offer_validity_days", objGet datesfs "offerValidityDeadlineDays"),
    ("description", objGet procfs "orderDescription"),
    ("cpv_codes", pyOr cpv_codes (PyVal.arr [])),
    ("bkp_codes", pyOr (objGetD procfs "bkpCodes" (PyVal.arr [])) (PyVal.arr [])),
    ("npk_codes", pyOr (objGetD procfs "npkCodes" (PyVal.arr [])) (PyVal.arr [])),
    ("oag_codes", pyOr (objGetD procfs "oagCodes" (PyVal.arr [])) (PyVal.arr [])),
    ("additional_cpv_codes", pyOr (objGetD procfs "additionalCpvCodes" (PyVal.arr [])) (PyVal.arr [])),
    ("proc_office_address", objGet pifs "procOfficeAddress"),
    ("procurement_recipient_address", objGet pifs "procurementRecipientAddress"),
    ("offer_address", objGet pifs "offerAddress"),
    ("order_address_description", objGet procfs "orderAddressDescription"),
    ("region", regionCountry.1),
    ("country", regionCountry.2),
    ("documents_languages", pyOr (objGetD pifs "documentsLanguages" (PyVal.arr [])) (PyVal.arr [])),
    ("offer_languages", pyOr (objGetD pifs "offerLanguages" (PyVal.arr [])) (PyVal.arr [])),
    ("publication_languages", pyOr (objGetD pifs "publicationLanguages" (PyVal.arr [])) (PyVal.arr [])),
    ("offer_types", pyOr (objGetD pifs "offerTypes" (PyVal.arr [])) (PyVal.arr [])),
    ("documents_source_type", objGet pifs "documentsSourceType"),
    ("state_contract_area", objGetD pifs "stateContractArea" (PyVal.bool false)),
    ("publication_ted", objGetD pifs "publicationTed" (PyVal.bool false)),
    ("construction_type", objGet procfs "constructionType"),
    ("construction_category", objGet procfs "constructionCategory"),
    ("variants_allowed", objGet procfs "variants"),
    ("partial_offers_allowed", objGet procfs "partialOffers"),
    ("execution_deadline_type", objGet procfs "executionDeadlineType"),
    ("execution_period", objGet procfs "executionPeriod"),
    ("execution_days", objGet procfs "executionDays"),
    ("consortium_allowed", objGet termsfs "consortiumAllowed"),
    ("subcontractor_allowed", objGet termsfs "subContractorAllowed"),
    ("terms_type", objGet termsfs "termsType"),
    ("remedies_notice", objGet termsfs "remediesNotice"),
    ("qualification_criteria", pyOr (objGetD critfs "qualificationCriteria" (PyVal.arr [])) (PyVal.arr [])),
    ("award_criteria", pyOr (objGetD critfs "awardCriteria" (PyVal.arr [])) (PyVal.arr [])),
    ("lots", pyOr (objGetD dfs "lots" (PyVal.arr [])) (PyVal.arr [])),
    ("has_project_documents", objGetD dfs "hasProjectDocuments" (PyVal.bool false)),
    ("raw_detail_data", details),
    ("details_fetched_at", PyVal.str now),
    ("updated_at", PyVal.str now)]

/-- The null filter applied before detail updates:
`{k: v for k, v in detail_data.items() if v is not None}`. -/
def dropNullFields (kvs : List (String × PyVal)) : List (String × PyVal) :=
  kvs.filter (fun kv => !kv.2.isNull)

/-- The payload actually sent by the detail-update paths
(`fetch_and_update_details` and `_batch_update_details`): the transformed
detail record with all null-valued fields dropped. -/
def update_detail_payload (now : String) (details : PyVal) :
    Option (List (String × PyVal)) :=
  (transform_publication_details now details).map dropNullFields

/-- `DETAIL_API_MAX_RETRIES`. -/
def DETAIL_API_MAX_RETRIES : Nat := 3

/-- `UPSERT_BATCH_SIZE`. -/
def UPSERT_BATCH_SIZE : Nat := 100

/-- `DATABASE_BATCH_SIZE`. -/
def DATABASE_BATCH_SIZE : Nat := 100

/-- `SYNC_STATE_ID`. -/
def SYNC_STATE_ID : String := "simap_search"

/-- `CLOSING_SOON_DAYS`. -/
def CLOSING_SOON_DAYS : Nat := 7

/-- What the detail endpoint answers to one attempt of one request. -/
inductive DetailResp where
  | ok (data : PyVal) : DetailResp
  | httpStatus (code : Nat) : DetailResp
  | timeout : DetailResp
  | netError : DetailResp

/-- Outcome of the attempt loop shared by `fetch_publication_details` and
`fetch_publication_details_async`: final result, number of attempts actually
made, and number of fixed-delay waits (`DETAIL_API_RETRY_DELAY`) performed. -/
structure AttemptResult where
  result : Option PyVal
  attempts : Nat
  sleeps : Nat

/-- The retry loop of the detail fetchers
(`for attempt in range(1, DETAIL_API_MAX_RETRIES + 1)`): a 4xx status other
than 429 or a non-HTTP exception is terminal; 429, 5xx and timeouts sleep a
fixed delay and retry while attempts remain. `oracle n` is the server's answer
to attempt `n`; `fuel` is the number of loop iterations left. -/
def detail_attempt_loop (oracle : Nat → DetailResp) : Nat → Nat → AttemptResult
  | _, 0 => ⟨none, 0, 0⟩
  | attempt, fuel + 1 =>
    match oracle attempt with
    | .ok d => ⟨some d, attempt, 0⟩
    | .httpStatus c =>
      if 400 ≤ c ∧ c < 500 ∧ c ≠ 429 then ⟨none, attempt, 0⟩
      else if attempt < DETAIL_API_MAX_RETRIES then
        let r := detail_attempt_loop oracle (attempt + 1) fuel
        ⟨r.result, r.attempts, r.sleeps + 1⟩
      else ⟨none, attempt, 0⟩
    | .timeout =>
      if attempt < DETAIL_API_MAX_RETRIES then
        let r := detail_attempt_loop oracle (attempt + 1) fuel
        ⟨r.result, r.attempts, r.sleeps + 1⟩
      else ⟨none, attempt, 0⟩
    | .netError => ⟨none, attempt, 0⟩

/-- `SimapSyncWorker.fetch_publication_details` (synchronous variant). -/
def fetch_publication_details (oracle : Nat → DetailResp) : AttemptResult :=
  detail_attempt_loop oracle 1 DETAIL_API_MAX_RETRIES

/-- Result of `fetch_publication_details_async`: the optional
`{"tender_id": ..., "data": ...}` value plus retry accounting. -/
structure DetailFetchResult where
  value : Option (String × PyVal)
  attempts : Nat
  sleeps : Nat

/-- `SimapSyncWorker.fetch_publication_details_async`: same retry logic as the
synchronous variant, wrapping a success as `{"tender_id": ..., "data": ...}`. -/
def fetch_publication_details_async (tender_id : String) (oracle : Nat → DetailResp) :
    DetailFetchResult :=
  let r := detail_attempt_loop oracle 1 DETAIL_API_MAX_RETRIES
  ⟨r.result.map (fun d => (tender_id, d)), r.attempts, r.sleeps⟩

/-- A row of the `tenders` table as selected by `fetch_details_for_tenders`. -/
structure DbTender where
  id : String
  external_id : PyVal
  publication_id : PyVal
  details_fetched_at : PyVal
  deleted_at : PyVal
  source : String

/-- One entry of the `asyncio.gather(..., return_exceptions=True)` result:
either the task's return value or an exception object. -/
inductive TaskOutcome where
  | value (v : Option (String × PyVal)) : TaskOutcome
  | exc : TaskOutcome

/-- One step of the result filter of `fetch_details_parallel`: a result is
kept when it is truthy, not an exception, and has truthy `data`; only
exceptions count as detail errors; `None` results are silently skipped. -/
def gather_step (acc : List (String × PyVal) × Nat) (r : TaskOutcome) :
    List (String × PyVal) × Nat :=
  match r with
  | .value (some (tid, d)) => if d.truthy then (acc.1 ++ [(tid, d)], acc.2) else acc
  | .value none => acc
  | .exc => (acc.1, acc.2 + 1)

/-- The result filter of `fetch_details_parallel`. Returns the successful
results and the `details_errors` increment. -/
def gather_filter (results : List TaskOutcome) : List (String × PyVal) × Nat :=
  results.foldl gather_step ([], 0)

/-- `SimapSyncWorker.fetch_details_parallel`: builds one task per tender that
has truthy `external_id` and `publication_id`, gathers them, and filters.
`oracle tid n` is the server's answer to attempt `n` for tender `tid`. -/
def fetch_details_parallel (oracle : String → Nat → DetailResp)
    (tenders : List DbTender) : List (String × PyVal) × Nat :=
  let tasks := tenders.filterMap (fun t =>
    if t.external_id.truthy && t.publication_id.truthy then
      some (TaskOutcome.value (fetch_publication_details_async t.id (oracle t.id)).value)
    else none)
  gather_filter tasks

/-- Kinds of database writes the worker can issue. -/
inductive CkStatus where
  | in_progress : CkStatus
  | interrupted : CkStatus
  | completed : CkStatus
  | failed : CkStatus

/-- One write against the Supabase store. -/
inductive DbWrite where
  | checkpointSave (id : String) (cursor : Option String) (status : CkStatus) (records : Nat) : DbWrite
  | checkpointClear (id : String) : DbWrite
  | tendersUpsertBatch (records : List (List (String × PyVal))) : DbWrite
  | tendersUpsertOne (record : List (String × PyVal)) : DbWrite
  | statusSetClosingSoon (now : Int) : DbWrite
  | statusSetClosed (now : Int) : DbWrite
  | tenderDetailUpdate (id : String) (payload : List (String × PyVal)) : DbWrite

/-- Whether a write is an upsert into the `tenders` table. -/
def DbWrite.isUpsert : DbWrite → Bool
  | .tendersUpsertBatch _ => true
  | .tendersUpsertOne _ => true
  | _ => false

/-- Whether a write is a checkpoint save into `sync_state`. -/
def DbWrite.isCheckpointSave : DbWrite → Bool
  | .checkpointSave _ _ _ _ => true
  | _ => false

/-- The run statistics accumulator `self.stats`. -/
structure Stats where
  fetched : Nat
  inserted : Nat
  updated : Nat
  details_fetched : Nat
  details_errors : Nat
  errors : Nat

/-- Initial statistics of a run. -/
def Stats.init : Stats := ⟨0, 0, 0, 0, 0, 0⟩

/-- Worker state threaded through the phases: statistics and the log of
database writes issued so far. -/
structure WorkerState where
  stats : Stats
  writes : List DbWrite

/-- Initial worker state. -/
def WorkerState.init : WorkerState := ⟨Stats.init, []⟩

/-- Worker configuration flags relevant to the modelled claims. -/
structure SyncConfig where
  dry_run : Bool
  enable_checkpoints : Bool

/-- `SimapSyncWorker._save_checkpoint`: a no-op under dry run or with
checkpoints disabled, otherwise an upsert into `sync_state`. -/
def save_checkpoint (cfg : SyncConfig) (id : String) (cursor : Option String)
    (status : CkStatus) (records : Nat) (log : List DbWrite) : List DbWrite :=
  if cfg.dry_run || !cfg.enable_checkpoints then log
  else log ++ [DbWrite.checkpointSave id cursor status records]

/-- `SimapSyncWorker._clear_checkpoint`. -/
def clear_checkpoint (cfg : SyncConfig) (id : String) (log : List DbWrite) : List DbWrite :=
  if cfg.dry_run || !cfg.enable_checkpoints then log
  else log ++ [DbWrite.checkpointClear id]

/-- One response of the search endpoint: a page of projects with the
pagination cursor `lastItem`, or an HTTP/transport failure. -/
inductive PageResp where
  | ok (projects : List PyVal) (lastItem : Option String) : PageResp
  | err : PageResp

/-- Projects carried by a page response. -/
def PageResp.projectsOf : PageResp → List PyVal
  | .ok ps _ => ps
  | .err => []

/-- Cursor carried by a page response. -/
def PageResp.cursorOf : PageResp → Option String
  | .ok _ c => c
  | .err => none

/-- Python truthiness of the cursor variable (`if not last_item: break`). -/
def cursorTruthy : Option String → Bool
  | none => false
  | some s => s != ""

/-- Local state of `fetch_projects`: the accumulated `all_projects`, the
`last_item` cursor, the `error_occurred` flag, and the worker state. -/
structure FetchState where
  worker : WorkerState
  all_projects : List PyVal
  last_item : Option String
  error_occurred : Bool

/-- Python `if limit and len(all_projects) >= limit:` (`limit` of 0 or `None`
is falsy and disables trimming). -/
def limit_hit (limit : Option Nat) (n : Nat) : Bool :=
  match limit with
  | some l => decide (0 < l) && decide (l ≤ n)
  | none => false

/-- `all_projects[:limit]`. -/
def take_to (limit : Option Nat) (xs : List PyVal) : List PyVal :=
  match limit with
  | some l => xs.take l
  | none => xs

/-- The pagination loop of `SimapSyncWorker.fetch_projects`. `pages` is the
sequence of responses the search endpoint gives to successive requests;
`page` is the 1-based page counter with its hard ceiling of 1000. -/
def fetch_projects_loop (cfg : SyncConfig) (limit : Option Nat) :
    List PageResp → FetchState → Nat → FetchState
  | [], st, _ => st
  | .err :: _, st, _ =>
    { st with
      worker := { st.worker with stats := { st.worker.stats with errors := st.worker.stats.errors + 1 } }
      error_occurred := true }
  | .ok projects lastItem :: rest, st, page =>
    match projects with
    | [] => st
    | _ :: _ =>
      let st1 : FetchState :=
        { st with
          all_projects := st.all_projects ++ projects
          worker := { st.worker with stats := { st.worker.stats with fetched := st.worker.stats.fetched + projects.length } } }
      if limit_hit limit st1.all_projects.length then
        { st1 with all_projects := take_to limit st1.all_projects }
      else
        let st2 : FetchState := { st1 with last_item := lastItem }
        if cursorTruthy lastItem then
          let st3 : FetchState :=
            { st2 with
              worker := { st2.worker with
                writes := save_checkpoint cfg SYNC_STATE_ID lastItem CkStatus.in_progress
                  st2.all_projects.length st2.worker.writes } }
          if page + 1 > 1000 then st3
          else fetch_projects_loop cfg limit rest st3 (page + 1)
        else st2

/-- `SimapSyncWorker.fetch_projects`: runs the pagination loop from an empty
accumulator and then performs the `finally` checkpoint write (`interrupted`
with the current cursor on error, `completed` with a cleared cursor
otherwise). Returns the fetched projects and the final state. -/
def fetch_projects (cfg : SyncConfig) (limit : Option Nat) (pages : List PageResp)
    (st : WorkerState) : List PyVal × FetchState :=
  let fst0 : FetchState := ⟨st, [], none, false⟩
  let fst1 := fetch_projects_loop cfg limit pages fst0 1
  let fst2 :=
    if fst1.error_occurred then
      { fst1 with worker := { fst1.worker with
          writes := save_checkpoint cfg SYNC_STATE_ID fst1.last_item CkStatus.interrupted
            fst1.all_projects.length fst1.worker.writes } }
    else
      { fst1 with worker := { fst1.worker with
          writes := save_checkpoint cfg SYNC_STATE_ID none CkStatus.completed
            fst1.all_projects.length fst1.worker.writes } }
  (fst2.all_projects, fst2)

/-- How the store answers upsert writes: whether a batch upsert succeeds,
whether an individual upsert succeeds, and whether it returns rows
(`result.data`, deciding updated vs inserted in the fallback). -/
structure DbOracle where
  batchOk : List (List (String × PyVal)) → Bool
  rowOk : List (String × PyVal) → Bool
  rowHasData : List (String × PyVal) → Bool

/-- Fixed-size chunking with a structural fuel bound. -/
def chunkedAux (n : Nat) : Nat → List α → List (List α)
  | 0, _ => []
  | _, [] => []
  | fuel + 1, x :: tl => (x :: tl.take (n - 1)) :: chunkedAux n fuel (tl.drop (n - 1))

/-- Fixed-size chunking, as in `range(0, len(records), UPSERT_BATCH_SIZE)`. -/
def chunked (n : Nat) (xs : List α) : List (List α) :=
  chunkedAux n xs.length xs

/-- The transform loop of `upsert_tenders`: collects transformed records and
counts records whose transform raised. -/
def transform_all (now : String) (projects : List PyVal) :
    List (List (String × PyVal)) × Nat :=
  projects.foldl
    (fun acc p =>
      match transform_project now p with
      | some r => (acc.1 ++ [r], acc.2)
      | none => (acc.1, acc.2 + 1))
    ([], 0)

/-- `SimapSyncWorker._upsert_individually`: the per-record fallback after a
failed batch upsert. -/
def upsert_individually (db : DbOracle) (records : List (List (String × PyVal)))
    (st : WorkerState) : WorkerState :=
  records.foldl
    (fun st r =>
      if db.rowOk r then
        let st1 := { st with writes := st.writes ++ [DbWrite.tendersUpsertOne r] }
        if db.rowHasData r then
          { st1 with stats := { st1.stats with updated := st1.stats.updated + 1 } }
        else
          { st1 with stats := { st1.stats with inserted := st1.stats.inserted + 1 } }
      else
        { st with stats := { st.stats with errors := st.stats.errors + 1 } })
    st

/-- `SimapSyncWorker.upsert_tenders`: dry-run guard, transform loop, then
batched conflict-aware upserts with per-record fallback on batch failure. -/
def upsert_tenders (cfg : SyncConfig) (db : DbOracle) (now : String)
    (projects : List PyVal) (st : WorkerState) : WorkerState :=
  if cfg.dry_run then st
  else
    let tr := transform_all now projects
    let st := { st with stats := { st.stats with errors := st.stats.errors + tr.2 } }
    match tr.1 with
    | [] => st
    | _ :: _ =>
      (chunked UPSERT_BATCH_SIZE tr.1).foldl
        (fun st batch =>
          if db.batchOk batch then
            { st with
              stats := { st.stats with updated := st.stats.updated + batch.length }
              writes := st.writes ++ [DbWrite.tendersUpsertBatch batch] }
          else upsert_individually db batch st)
        st

/-- `SimapSyncWorker.update_tender_statuses`: dry-run guard, then the two
set-based status updates against the store. -/
def update_tender_statuses (cfg : SyncConfig) (now : Int) (st : WorkerState) : WorkerState :=
  if cfg.dry_run then st
  else { st with writes := st.writes ++ [DbWrite.statusSetClosingSoon now, DbWrite.statusSetClosed now] }

/-- Result of `SimapSyncWorker.fetch_and_update_details`: return value,
statistics increments and writes issued. `none` models an uncaught exception
in the detail transform. -/
structure FetchUpdateResult where
  ok : Bool
  details_errors : Nat
  details_fetched : Nat
  writes : List DbWrite

/-- `SimapSyncWorker.fetch_and_update_details`: skips when either identifier
is falsy; counts any falsy fetch result (`if not details:`) as a detail
error; otherwise transforms, drops null fields and updates the tender row. -/
def fetch_and_update_details (now : String) (oracle : Nat → DetailResp)
    (tender_id : String) (external_id publication_id : PyVal) : Option FetchUpdateResult :=
  if !external_id.truthy || !publication_id.truthy then some ⟨false, 0, 0, []⟩
  else
    match (fetch_publication_details oracle).result with
    | none => some ⟨false, 1, 0, []⟩
    | some d =>
      if !d.truthy then some ⟨false, 1, 0, []⟩
      else do
        let out ← transform_publication_details now d
        some ⟨true, 0, 1, [DbWrite.tenderDetailUpdate tender_id (dropNullFields out)]⟩

/-- The candidate query of `fetch_details_for_tenders`: `tenders` rows with
source `simap`, `deleted_at` null, and (in missing-only mode)
`details_fetched_at` null. -/
def details_candidates (tdb : List DbTender) (only_missing : Bool) : List DbTender :=
  tdb.filter (fun t =>
    t.source == "simap" && t.deleted_at.isNull && (!only_missing || t.details_fetched_at.isNull))

/-- Batch-size computation of `fetch_details_for_tenders`; `none` means the
loop breaks because the limit is exhausted. -/
def details_batch_size (limit : Option Nat) (total : Nat) : Option Nat :=
  match limit with
  | some l =>
    if 0 < l then
      if l ≤ total then none else some (min DATABASE_BATCH_SIZE (l - total))
    else some DATABASE_BATCH_SIZE
  | none => some DATABASE_BATCH_SIZE

/-- `SimapSyncWorker._batch_update_details`: transforms each gathered result
(skipping falsy data), drops null fields, and updates each tender row
individually, marking `details_fetched_at` in the store. -/
def batch_update_details (cfg : SyncConfig) (now : String)
    (results : List (String × PyVal)) (st : WorkerState) (tdb : List DbTender) :
    WorkerState × List DbTender :=
  if cfg.dry_run then (st, tdb)
  else
    let tr := results.foldl
      (fun (acc : List (String × List (String × PyVal)) × Nat) res =>
        if !res.2.truthy then acc
        else
          match transform_publication_details now res.2 with
          | some out => (acc.1 ++ [(res.1, dropNullFields out)], acc.2)
          | none => (acc.1, acc.2 + 1))
      ([], 0)
    let st := { st with stats := { st.stats with details_errors := st.stats.details_errors + tr.2 } }
    tr.1.foldl
      (fun (acc : WorkerState × List DbTender) upd =>
        ({ acc.1 with
            stats := { acc.1.stats with details_fetched := acc.1.stats.details_fetched + 1 }
            writes := acc.1.writes ++ [DbWrite.tenderDetailUpdate upd.1 upd.2] },
         acc.2.map (fun t =>
           if t.id == upd.1 then { t with details_fetched_at := PyVal.str now } else t)))
      (st, tdb)

/-- The candidate-window loop of `fetch_details_for_tenders`; `fuel` bounds
the re-scan loop, which in missing-only mode relies on updated rows dropping
out of the candidate set. -/
def details_loop (cfg : SyncConfig) (oracle : String → Nat → DetailResp) (now : String)
    (limit : Option Nat) (only_missing : Bool) :
    Nat → Nat → Nat → WorkerState → List DbTender → WorkerState × List DbTender
  | 0, _, _, st, tdb => (st, tdb)
  | fuel + 1, total, offset, st, tdb =>
    match details_batch_size limit total with
    | none => (st, tdb)
    | some bs =>
      let tenders := ((details_candidates tdb only_missing).drop offset).take bs
      match tenders with
      | [] => (st, tdb)
      | _ :: _ =>
        let fr := fetch_details_parallel oracle tenders
        let st := { st with stats := { st.stats with details_errors := st.stats.details_errors + fr.2 } }
        let upd := batch_update_details cfg now fr.1 st tdb
        if tenders.length < bs then upd
        else
          details_loop cfg oracle now limit only_missing fuel (total + tenders.length)
            (if only_missing then offset else offset + bs) upd.1 upd.2

/-- `SimapSyncWorker.fetch_details_for_tenders`: dry-run guard, then the
candidate-window loop over the persisted tenders. -/
def fetch_details_for_tenders (cfg : SyncConfig) (oracle : String → Nat → DetailResp)
    (now : String) (limit : Option Nat) (only_missing : Bool)
    (st : WorkerState) (tdb : List DbTender) : WorkerState × List DbTender :=
  if cfg.dry_run then (st, tdb)
  else details_loop cfg oracle now limit only_missing (tdb.length + 1) 0 0 st tdb

/-- `SimapSyncWorker.run`: fetch pages, then (if any project was fetched)
upsert and run the status transitions, then (if enabled) fetch details.
`nowS` is the ISO timestamp string and `nowT` the numeric time read by the
status updates. Returns the final worker state and tenders table. -/
def run_worker (cfg : SyncConfig) (db : DbOracle) (oracle : String → Nat → DetailResp)
    (pages : List PageResp) (tdb : List DbTender) (nowS : String) (nowT : Int)
    (limit details_limit : Option Nat) (fetch_details : Bool) :
    WorkerState × List DbTender :=
  let fp := fetch_projects cfg limit pages WorkerState.init
  let st :=
    match fp.1 with
    | [] => fp.2.worker
    | _ :: _ =>
      update_tender_statuses cfg nowT (upsert_tenders cfg db nowS fp.1 fp.2.worker)
  if fetch_details then
    fetch_details_for_tenders cfg oracle nowS details_limit true st tdb
  else (st, tdb)

/-- `main`'s exit code: `sys.exit(1)` when `stats["errors"] > 0`, otherwise a
normal return (exit code 0). -/
def main_exit_code (stats : Stats) : Nat :=
  if 0 < stats.errors then 1 else 0

/-- Status enumeration of a tender row. -/
inductive TenderStatus where
  | open_ : TenderStatus
  | closing_soon : TenderStatus
  | closed : TenderStatus
deriving DecidableEq

/-- The columns of a tender row read and written by `update_tender_statuses`;
times are seconds. -/
structure TenderRecord where
  status : TenderStatus
  status_changed_at : Option Int
  deadline : Option Int
deriving DecidableEq

/-- `now + timedelta(days=CLOSING_SOON_DAYS)` in seconds. -/
def closing_soon_threshold (now : Int) : Int :=
  now + CLOSING_SOON_DAYS * 86400

/-- Row-level semantics of the first set-based update of
`update_tender_statuses`: status `open`, deadline strictly below the
lookahead threshold and not below now, becomes `closing_soon`. -/
def mark_closing_soon (now : Int) (r : TenderRecord) : TenderRecord :=
  match r.deadline with
  | none => r
  | some d =>
    if r.status = TenderStatus.open_ ∧ d < closing_soon_threshold now ∧ now ≤ d then
      { r with status := TenderStatus.closing_soon, status_changed_at := some now }
    else r

/-- Row-level semantics of the second set-based update of
`update_tender_statuses`: status `open` or `closing_soon` with a passed
deadline becomes `closed`. -/
def mark_closed (now : Int) (r : TenderRecord) : TenderRecord :=
  match r.deadline with
  | none => r
  | some d =>
    if (r.status = TenderStatus.open_ ∨ r.status = TenderStatus.closing_soon) ∧ d < now then
      { r with status := TenderStatus.closed, status_changed_at := some now }
    else r

/-- Row-level effect of one application of `update_tender_statuses`: the two
set-based updates in source order. -/
def update_tender_statuses_row (now : Int) (r : TenderRecord) : TenderRecord :=
  mark_closed now (mark_closing_soon now r)

/-- A live configuration: no dry run, checkpoints enabled. -/
def cfg_live : SyncConfig := ⟨false, true⟩

/-- A dry-run configuration. -/
def cfg_dry : SyncConfig := ⟨true, true⟩

/-- A store where every upsert succeeds and returns rows. -/
def db_ok : DbOracle := ⟨fun _ => true, fun _ => true, fun _ => true⟩

/-- A detail endpoint answering HTTP 500 to every attempt. -/
def oracle500 : String → Nat → DetailResp := fun _ _ => DetailResp.httpStatus 500

/-- A detail endpoint answering HTTP 404 to every attempt. -/
def oracle404 : String → Nat → DetailResp := fun _ _ => DetailResp.httpStatus 404

/-- A minimal raw project record. -/
def rec1 : PyVal := PyVal.obj [("id", PyVal.str "p1")]

/-- A source serving one page of one project (with a next cursor) and then an
empty page. -/
def pages_two : List PageResp := [PageResp.ok [rec1] (some "c1"), PageResp.ok [] none]

/-- A source serving two pages of two projects each. -/
def pages_lim : List PageResp :=
  [PageResp.ok [PyVal.str "a", PyVal.str "b"] (some "c1"),
   PageResp.ok [PyVal.str "c", PyVal.str "d"] (some "c2")]

/-- A tender row with both detail identifiers present and details pending. -/
def tenderY : DbTender := ⟨"y", PyVal.str "ext-y", PyVal.str "pub-y", PyVal.null, PyVal.null, "simap"⟩

/-- Another tender row with both detail identifiers present. -/
def tenderX : DbTender := ⟨"x", PyVal.str "ext-x", PyVal.str "pub-x", PyVal.null, PyVal.null, "simap"⟩

/-- A complete live run over `pages_two` with details disabled. -/
def run_live : WorkerState × List DbTender :=
  run_worker cfg_live db_ok oracle404 pages_two [] "T" 0 none none false

/-- A raw project dict whose `title` field, if present at all, is a
multilingual dict (absent is allowed). -/
def title_ok (fs : List (String × PyVal)) : Prop :=
  match fs.lookup "title" with
  | none => True
  | some (PyVal.obj _) => True
  | some _ => False

/-- A raw project dict whose `orderAddress` field, if present at all, is
falsy or a dict (absent is allowed). -/
def order_address_ok (fs : List (String × PyVal)) : Prop :=
  match fs.lookup "orderAddress" with
  | none => True
  | some v => v.truthy = false ∨ ∃ ofs, v = PyVal.obj ofs

/-- Claim C1 as a predicate on a write log: every `in_progress` checkpoint
save carrying a cursor and a positive record count is preceded by some upsert
write. -/
def checkpoint_after_upsert (log : List DbWrite) : Prop :=
  ∀ (i : Nat) (cur : String) (n : Nat),
    log[i]? = some (DbWrite.checkpointSave SYNC_STATE_ID (some cur) CkStatus.in_progress n) →
    0 < n → ∃ j : Nat, j < i ∧ ∃ w : DbWrite, log[j]? = some w ∧ w.isUpsert = true

/-- Claim C2 (spec): a detail request answered 429/5xx/timeout on all
attempts should increment `details_errors` by exactly 1. -/
theorem C2_exhausted_retries_uncounted :
    fetch_publication_details_async "y" (fun _ => DetailResp.httpStatus 500) =
      ⟨none, DETAIL_API_MAX_RETRIES, 2⟩ ∧
    fetch_details_parallel oracle500 [tenderY] = ([], 0) :=
  ⟨rfl, rfl⟩

/-- Claim C3 counterexample: a detail request answered HTTP 404 through
`fetch_and_update_details` increments `details_errors` by 1, although the
claim says the counter is not incremented for 4xx responses other than 429. -/
theorem C3_counterexample :
    fetch_and_update_details "T" (fun _ => DetailResp.httpStatus 404) "x"
      (PyVal.str "ext-x") (PyVal.str "pub-x") = some ⟨false, 1, 0, []⟩ :=
  rfl

/-- Claim C4: the process exit signal of a run is non-zero exactly when the
aggregated `errors` counter of the run's statistics is non-zero. -/
theorem C4_exit_nonzero_iff_errors (cfg : SyncConfig) (db : DbOracle)
    (oracle : String → Nat → DetailResp) (pages : List PageResp) (tdb : List DbTender)
    (nowS : String) (nowT : Int) (limit details_limit : Option Nat) (fd : Bool) :
    main_exit_code (run_worker cfg db oracle pages tdb nowS nowT limit details_limit fd).1.stats ≠ 0 ↔
      (run_worker cfg db oracle pages tdb nowS nowT limit details_limit fd).1.stats.errors ≠ 0 := by
  unfold main_exit_code
  split <;> omega

/-- Claim C5: one application of the status transition sets `closing_soon`
exactly on open records whose deadline lies in the 7-day window and has not
passed, sets `closed` exactly on open or closing-soon records whose deadline
has passed, and leaves records with a null deadline unchanged. -/
theorem C5_status_transition (now : Int) (r : TenderRecord) :
    ((update_tender_statuses_row now r).status = TenderStatus.closing_soon ∧
        r.status ≠ TenderStatus.closing_soon ↔
      r.status = TenderStatus.open_ ∧
        ∃ d, r.deadline = some d ∧ now ≤ d ∧ d < closing_soon_threshold now) ∧
    ((update_tender_statuses_row now r).status = TenderStatus.closed ∧
        r.status ≠ TenderStatus.closed ↔
      (r.status = TenderStatus.open_ ∨ r.status = TenderStatus.closing_soon) ∧
        ∃ d, r.deadline = some d ∧ d < now) ∧
    (r.deadline = none → update_tender_statuses_row now r = r) := by
  obtain ⟨st, sca, dl⟩ := r
  cases dl with
  | none =>
    refine ⟨?_, ?_, fun _ => rfl⟩ <;>
      cases st <;>
        simp [update_tender_statuses_row, mark_closing_soon, mark_closed]
  | some d =>
    cases st <;>
      simp only [update_tender_statuses_row, mark_closing_soon, mark_closed] <;>
      split_ifs <;>
      simp_all <;>
      first
        | omega
        | (split_ifs <;> simp_all <;> omega)

/-- Claim C6: the detail-update payload merged into storage contains no
null-valued field; exactly the null-valued fields of the transformed detail
record are dropped. -/
theorem C6_detail_merge_drops_nulls (now : String) (details : PyVal)
    (out : List (String × PyVal))
    (h : transform_publication_details now details = some out) :
    update_detail_payload now details = some (dropNullFields out) ∧
    (∀ kv ∈ dropNullFields out, kv.2.isNull = false) ∧
    (∀ kv ∈ out, kv.2.isNull = false → kv ∈ dropNullFields out) := by
  refine ⟨by simp [update_detail_payload, h], ?_, ?_⟩
  · intro kv hkv
    have h2 := (List.mem_filter.mp hkv).2
    simpa using h2
  · intro kv hkv hnull
    exact List.mem_filter.mpr ⟨hkv, by simp [hnull]⟩

/-- Witness for C6 at a concrete detail response. -/
theorem C6_witness :
    update_detail_payload "T" (PyVal.obj []) =
      some (dropNullFields ((transform_publication_details "T" (PyVal.obj [])).getD [])) :=
  (C6_detail_merge_drops_nulls "T" (PyVal.obj []) _ (by rfl)).1

/-- Claim C9 counterexample: `transform_project` reads the clock, so two
applications to the same input at different instants give different records
(the `updated_at` field differs). -/
theorem C9_counterexample :
    transform_project "2026-01-01T00:00:00Z" (PyVal.obj []) ≠
      transform_project "2026-01-02T00:00:00Z" (PyVal.obj []) := by
  intro h
  have e : PyVal.str "2026-01-01T00:00:00Z" = PyVal.str "2026-01-02T00:00:00Z" :=
    congrArg (fun o => ((Option.getD o []).lookup "updated_at").getD PyVal.null) h
  injection e with e1
  exact absurd e1 (by decide)

/-- The attempt loop is terminal without retry on a 4xx response other than
429, reporting absence after one attempt and zero delays. -/
theorem detail_attempt_4xx (oracle : Nat → DetailResp) (attempt fuel c : Nat)
    (hc : 400 ≤ c ∧ c < 500 ∧ c ≠ 429) (heq : oracle attempt = DetailResp.httpStatus c)
    (hf : 0 < fuel) :
    detail_attempt_loop oracle attempt fuel = ⟨none, attempt, 0⟩ := by
  cases fuel with
  | zero => omega
  | succ m =>
    show (match oracle attempt with
      | DetailResp.ok d => (⟨some d, attempt, 0⟩ : AttemptResult)
      | DetailResp.httpStatus c =>
        if 400 ≤ c ∧ c < 500 ∧ c ≠ 429 then ⟨none, attempt, 0⟩
        else if attempt < DETAIL_API_MAX_RETRIES then
          let r := detail_attempt_loop oracle (attempt + 1) m
          ⟨r.result, r.attempts, r.sleeps + 1⟩
        else ⟨none, attempt, 0⟩
      | DetailResp.timeout =>
        if attempt < DETAIL_API_MAX_RETRIES then
          let r := detail_attempt_loop oracle (attempt + 1) m
          ⟨r.result, r.attempts, r.sleeps + 1⟩
        else ⟨none, attempt, 0⟩
      | DetailResp.netError => ⟨none, attempt, 0⟩) = ⟨none, attempt, 0⟩
    rw [heq]
    exact if_pos hc

/-- Folding the gather filter over a list of `None` task results keeps the
accumulator unchanged. -/
theorem gather_foldl_none (l : List TaskOutcome)
    (h : ∀ x ∈ l, x = TaskOutcome.value none) :
    ∀ acc : List (String × PyVal) × Nat, l.foldl gather_step acc = acc := by
  induction l with
  | nil => intro acc; rfl
  | cons x tl ih =>
    intro acc
    have hx := h x (List.mem_cons_self x tl)
    subst hx
    exact ih (fun y hy => h y (List.mem_cons_of_mem _ hy)) acc

/-- Claim C3 (amended): in the parallel enrichment path used by the engine, a
detail request answered with a 4xx other than 429 on its first attempt is
terminal without retry or delay, yields absence, and the whole parallel phase
produces no successful result and no `details_errors` increment. -/
theorem C3_4xx_terminal_not_counted (oracle : String → Nat → DetailResp)
    (h4 : ∀ tid, ∃ c, 400 ≤ c ∧ c < 500 ∧ c ≠ 429 ∧ oracle tid 1 = DetailResp.httpStatus c)
    (tenders : List DbTender) :
    (∀ tid, fetch_publication_details_async tid (oracle tid) = ⟨none, 1, 0⟩) ∧
    fetch_details_parallel oracle tenders = ([], 0) := by
  have key : ∀ tid, fetch_publication_details_async tid (oracle tid) = ⟨none, 1, 0⟩ := by
    intro tid
    obtain ⟨c, hc1, hc2, hc3, heq⟩ := h4 tid
    unfold fetch_publication_details_async
    rw [detail_attempt_4xx (oracle tid) 1 DETAIL_API_MAX_RETRIES c ⟨hc1, hc2, hc3⟩ heq
      (by decide)]
    rfl
  refine ⟨key, ?_⟩
  unfold fetch_details_parallel gather_filter
  apply gather_foldl_none
  intro x hx
  obtain ⟨t, -, hft⟩ := List.mem_filterMap.mp hx
  by_cases hid : (t.external_id.truthy && t.publication_id.truthy) = true
  · rw [if_pos hid] at hft
    have hx2 := Option.some.inj hft
    rw [key t.id] at hx2
    exact hx2.symm
  · rw [if_neg hid] at hft
    exact absurd hft (Option.noConfusion)

/-- Witness for C3 at a concrete 404 endpoint and one candidate tender. -/
theorem C3_witness : fetch_details_parallel oracle404 [tenderX] = ([], 0) :=
  (C3_4xx_terminal_not_counted oracle404
    (fun _ => ⟨404, by omega, by omega, by omega, rfl⟩) [tenderX]).2

/-- Claim C1 counterexample: in a concrete live run, the first write of the
run is an `in_progress` checkpoint save with cursor `c1` covering 1 fetched
record, and no upsert write precedes it. -/
theorem C1_counterexample : ¬ checkpoint_after_upsert run_live.1.writes := by
  intro h
  obtain ⟨j, hj, -⟩ := h 0 "c1" 1 rfl (by decide)
  exact absurd hj (Nat.not_lt_zero j)

/-- Claim C8: `transform_project` is total on raw project dicts whose
optional fields are absent (or well-formed where present): it returns a
record with exactly the destination schema's keys, defaults included. -/
theorem C8_transform_total (now : String) (fs : List (String × PyVal))
    (h1 : title_ok fs) (h2 : order_address_ok fs) :
    ∃ out, transform_project now (PyVal.obj fs) = some out ∧
      out.map Prod.fst = tender_schema_keys := by
  have hoa : ∃ ofs, asObj? (pyOr (objGet fs "orderAddress") (PyVal.obj [])) = some ofs := by
    unfold order_address_ok at h2
    unfold objGet pyOr
    cases hv : fs.lookup "orderAddress" with
    | none => exact ⟨[], rfl⟩
    | some v =>
      rw [hv] at h2
      rcases h2 with hfalse | ⟨ofs, rfl⟩
      · simp [Option.getD, hfalse, asObj?]
      · by_cases ht : (PyVal.obj ofs).truthy = true
        · simp [Option.getD, ht, asObj?]
        · simp [Option.getD, Bool.not_eq_true] at ht
          simp [Option.getD, ht, asObj?]
  have hti : ∃ tfs, asObj? (objGetD fs "title" (PyVal.obj [])) = some tfs := by
    unfold title_ok at h1
    unfold objGetD
    cases hv : fs.lookup "title" with
    | none => exact ⟨[], rfl⟩
    | some v =>
      rw [hv] at h1
      cases v with
      | obj tfs => exact ⟨tfs, rfl⟩
      | null => exact absurd h1 (by simp)
      | bool b => exact absurd h1 (by simp)
      | num n => exact absurd h1 (by simp)
      | str s => exact absurd h1 (by simp)
      | arr xs => exact absurd h1 (by simp)
  obtain ⟨ofs, hofs⟩ := hoa
  obtain ⟨tfs, htfs⟩ := hti
  unfold transform_project
  rw [show asObj? (PyVal.obj fs) = some fs from rfl]
  rw [Option.bind_eq_bind, Option.some_bind, hofs, Option.some_bind, htfs,
    Option.some_bind]
  exact ⟨_, rfl, rfl⟩

/-- Witness for C8 at the raw project dict with every optional field
absent. -/
theorem C8_witness :
    title_ok [] ∧ order_address_ok [] ∧
      ∃ out, transform_project "T" (PyVal.obj []) = some out ∧
        out.map Prod.fst = tender_schema_keys :=
  ⟨trivial, trivial, C8_transform_total "T" [] trivial trivial⟩

/-- Claim C9 (amended): `transform_project` is deterministic given the clock
reading: on the same input, two applications produce records that agree on
every field except `updated_at`, which carries the respective call time; it
reads and mutates no other state. -/
theorem C9_deterministic_given_clock (now1 now2 : String) (p : PyVal)
    (o1 o2 : List (String × PyVal))
    (h1 : transform_project now1 p = some o1) (h2 : transform_project now2 p = some o2) :
    ∃ pre post, o1 = pre ++ ("updated_at", PyVal.str now1) :: post ∧
      o2 = pre ++ ("updated_at", PyVal.str now2) :: post := by
  unfold transform_project at h1 h2
  cases hp : asObj? p with
  | none => rw [hp] at h1; exact absurd h1 (by simp)
  | some pfs =>
    rw [hp] at h1 h2
    rw [Option.bind_eq_bind, Option.some_bind] at h1 h2
    cases hoa : asObj? (pyOr (objGet pfs "orderAddress") (PyVal.obj [])) with
    | none => rw [hoa] at h1; exact absurd h1 (by simp)
    | some ofs =>
      rw [hoa, Option.some_bind] at h1 h2
      cases hti : asObj? (objGetD pfs "title" (PyVal.obj [])) with
      | none => rw [hti] at h1; exact absurd h1 (by simp)
      | some tfs =>
        rw [hti, Option.some_bind] at h1 h2
        have e1 := Option.some.inj h1
        have e2 := Option.some.inj h2
        refine
          ⟨[("external_id", objGet pfs "id"),
            ("source", PyVal.str "simap"),
            ("source_url",
              PyVal.str ("https://www.simap.ch/project/" ++ (objGet pfs "projectNumber").pyStr)),
            ("title", objGet pfs "title"),
            ("project_number", objGet pfs "projectNumber"),
            ("publication_number", objGet pfs "publicationNumber"),
            ("project_type", objGet pfs "projectType"),
            ("project_sub_type", objGet pfs "projectSubType"),
            ("process_type", objGet pfs "processType"),
            ("lots_type", objGet pfs "lotsType"),
            ("authority", objGet pfs "procOfficeName"),
            ("publication_date", objGet pfs "publicationDate"),
            ("pub_type", objGet pfs "pubType"),
            ("corrected", objGetD pfs "corrected" (PyVal.bool false)),
            ("region", objGet ofs "cantonId"),
            ("country", objGetD ofs "countryId" (PyVal.str "CH")),
            ("order_address",
              if (pyOr (objGet pfs "orderAddress") (PyVal.obj [])).truthy then
                pyOr (objGet pfs "orderAddress") (PyVal.obj [])
              else PyVal.null),
            ("language", PyVal.str (lang_pref tfs)),
            ("raw_data", p)],
           [("publication_id", objGet pfs "publicationId")], e1.symm, e2.symm⟩

/-- Witness for C9 at two distinct clock readings and the empty project. -/
theorem C9_witness :
    ∃ pre post,
      ((transform_project "t1" (PyVal.obj [])).getD []) =
        pre ++ ("updated_at", PyVal.str "t1") :: post ∧
      ((transform_project "t2" (PyVal.obj [])).getD []) =
        pre ++ ("updated_at", PyVal.str "t2") :: post :=
  C9_deterministic_given_clock "t1" "t2" (PyVal.obj []) _ _ (by rfl) (by rfl)

/-- Witness for C5, the spec's scenario: an open record with deadline three
days ahead becomes `closing_soon`. -/
theorem C5_witness :
    (0:Int) ≤ 259200 ∧ (259200:Int) < closing_soon_threshold 0 ∧
    (update_tender_statuses_row 0
        ⟨TenderStatus.open_, none, some 259200⟩).status = TenderStatus.closing_soon :=
  ⟨by norm_num,
   by norm_num [closing_soon_threshold, CLOSING_SOON_DAYS],
   ((C5_status_transition 0 ⟨TenderStatus.open_, none, some 259200⟩).1.mpr
     ⟨rfl, 259200, rfl, by norm_num,
       by norm_num [closing_soon_threshold, CLOSING_SOON_DAYS]⟩).1⟩

/-- Folding a step that only appends writes satisfying `p` yields an
extension of the write log whose members all satisfy `p`. -/
theorem foldl_writes_ext {σ α : Type} (wr : σ → List DbWrite) (p : DbWrite → Bool)
    (f : σ → α → σ)
    (hf : ∀ s a, ∃ e, wr (f s a) = wr s ++ e ∧ ∀ w ∈ e, p w = true)
    (l : List α) (s : σ) :
    ∃ ext, wr (l.foldl f s) = wr s ++ ext ∧ ∀ w ∈ ext, p w = true := by
  induction l generalizing s with
  | nil => exact ⟨[], by simp, by simp⟩
  | cons a tl ih =>
    obtain ⟨e1, he1, hp1⟩ := hf s a
    obtain ⟨e2, he2, hp2⟩ := ih (f s a)
    refine ⟨e1 ++ e2, ?_, ?_⟩
    · rw [List.foldl_cons, he2, he1, List.append_assoc]
    · intro w hw
      rcases List.mem_append.mp hw with h | h
      exacts [hp1 w h, hp2 w h]

/-- A checkpoint save appends only checkpoint-save writes. -/
theorem save_checkpoint_ext (cfg : SyncConfig) (id : String) (cursor : Option String)
    (status : CkStatus) (records : Nat) (log : List DbWrite) :
    ∃ e, save_checkpoint cfg id cursor status records log = log ++ e ∧
      ∀ w ∈ e, w.isCheckpointSave = true := by
  unfold save_checkpoint
  split
  · exact ⟨[], by simp, by simp⟩
  · exact ⟨[DbWrite.checkpointSave id cursor status records], rfl, by
      intro w hw
      simp only [List.mem_singleton] at hw
      subst hw
      rfl⟩

/-- The per-record upsert fallback appends only upsert writes. -/
theorem upsert_individually_ext (db : DbOracle) (records : List (List (String × PyVal)))
    (st : WorkerState) :
    ∃ e, (upsert_individually db records st).writes = st.writes ++ e ∧
      ∀ w ∈ e, w.isUpsert = true := by
  unfold upsert_individually
  apply foldl_writes_ext WorkerState.writes DbWrite.isUpsert
  intro s r
  by_cases hr : db.rowOk r = true
  · refine ⟨[DbWrite.tendersUpsertOne r], ?_, ?_⟩
    · simp only [hr, if_true]
      split <;> rfl
    · intro w hw
      simp only [List.mem_singleton] at hw
      subst hw
      rfl
  · refine ⟨[], ?_, by simp⟩
    simp only [Bool.not_eq_true] at hr
    simp [hr]

/-- `upsert_tenders` appends only upsert writes. -/
theorem upsert_tenders_ext (cfg : SyncConfig) (db : DbOracle) (now : String)
    (projects : List PyVal) (st : WorkerState) :
    ∃ e, (upsert_tenders cfg db now projects st).writes = st.writes ++ e ∧
      ∀ w ∈ e, w.isUpsert = true := by
  simp only [upsert_tenders]
  split
  · exact ⟨[], by simp, by simp⟩
  · split
    · exact ⟨[], by simp, by simp⟩
    · apply foldl_writes_ext WorkerState.writes DbWrite.isUpsert
      intro s batch
      by_cases hb : db.batchOk batch = true
      · refine ⟨[DbWrite.tendersUpsertBatch batch], ?_, ?_⟩
        · simp [hb]
        · intro w hw
          simp only [List.mem_singleton] at hw
          subst hw
          rfl
      · simp only [Bool.not_eq_true] at hb
        simp only [hb, Bool.false_eq_true, if_false]
        exact upsert_individually_ext db batch s

/-- The status updates append only status-update writes (never checkpoint
saves). -/
theorem update_tender_statuses_ext (cfg : SyncConfig) (now : Int) (st : WorkerState) :
    ∃ e, (update_tender_statuses cfg now st).writes = st.writes ++ e ∧
      ∀ w ∈ e, w.isCheckpointSave = false ∧ w.isUpsert = false := by
  unfold update_tender_statuses
  split
  · exact ⟨[], by simp, by simp⟩
  · refine ⟨[DbWrite.statusSetClosingSoon now, DbWrite.statusSetClosed now], rfl, ?_⟩
    intro w hw
    rcases List.mem_cons.mp hw with h | h
    · subst h; exact ⟨rfl, rfl⟩
    · simp only [List.mem_singleton] at h
      subst h; exact ⟨rfl, rfl⟩

/-- `_batch_update_details` appends only detail-update writes. -/
theorem batch_update_details_ext (cfg : SyncConfig) (now : String)
    (results : List (String × PyVal)) (st : WorkerState) (tdb : List DbTender) :
    ∃ e, (batch_update_details cfg now results st tdb).1.writes = st.writes ++ e ∧
      ∀ w ∈ e, (!w.isCheckpointSave && !w.isUpsert) = true := by
  simp only [batch_update_details]
  split
  · exact ⟨[], by simp, by simp⟩
  · apply foldl_writes_ext (fun s : WorkerState × List DbTender => s.1.writes)
    intro s upd
    refine ⟨[DbWrite.tenderDetailUpdate upd.1 upd.2], rfl, ?_⟩
    intro w hw
    simp only [List.mem_singleton] at hw
    subst hw
    rfl

/-- Composing two write-log extensions. -/
theorem ext_trans {w1 w2 w3 : List DbWrite} {p : DbWrite → Bool}
    (h1 : ∃ e, w2 = w1 ++ e ∧ ∀ w ∈ e, p w = true)
    (h2 : ∃ e, w3 = w2 ++ e ∧ ∀ w ∈ e, p w = true) :
    ∃ e, w3 = w1 ++ e ∧ ∀ w ∈ e, p w = true := by
  obtain ⟨e1, he1, hp1⟩ := h1
  obtain ⟨e2, he2, hp2⟩ := h2
  refine ⟨e1 ++ e2, by rw [he2, he1, List.append_assoc], ?_⟩
  intro w hw
  rcases List.mem_append.mp hw with h | h
  exacts [hp1 w h, hp2 w h]

/-- An upsert write is not a checkpoint save. -/
theorem upsert_not_save (w : DbWrite) (h : w.isUpsert = true) :
    w.isCheckpointSave = false := by
  cases w <;> first | rfl | exact absurd h (by simp [DbWrite.isUpsert])

/-- The candidate-window loop appends only detail-update writes. -/
theorem details_loop_ext (cfg : SyncConfig) (oracle : String → Nat → DetailResp)
    (now : String) (limit : Option Nat) (om : Bool) :
    ∀ (fuel total offset : Nat) (st : WorkerState) (tdb : List DbTender),
      ∃ e, (details_loop cfg oracle now limit om fuel total offset st tdb).1.writes =
          st.writes ++ e ∧
        ∀ w ∈ e, (!w.isCheckpointSave && !w.isUpsert) = true := by
  intro fuel
  induction fuel with
  | zero =>
    intro total offset st tdb
    exact ⟨[], by simp [details_loop], by simp⟩
  | succ m ih =>
    intro total offset st tdb
    simp only [details_loop]
    split
    · exact ⟨[], by simp, by simp⟩
    · split
      · exact ⟨[], by simp, by simp⟩
      · split
        · exact batch_update_details_ext cfg now _ _ _
        · refine ext_trans ?h1 (ih _ _ _ _)
          exact batch_update_details_ext cfg now _ _ _

/-- `fetch_details_for_tenders` appends only detail-update writes. -/
theorem fetch_details_for_tenders_ext (cfg : SyncConfig)
    (oracle : String → Nat → DetailResp) (now : String) (limit : Option Nat)
    (om : Bool) (st : WorkerState) (tdb : List DbTender) :
    ∃ e, (fetch_details_for_tenders cfg oracle now limit om st tdb).1.writes =
        st.writes ++ e ∧
      ∀ w ∈ e, (!w.isCheckpointSave && !w.isUpsert) = true := by
  unfold fetch_details_for_tenders
  split
  · exact ⟨[], by simp, by simp⟩
  · exact details_loop_ext cfg oracle now limit om _ _ _ st tdb

/-- The pagination loop appends only checkpoint-save writes. -/
theorem fetch_loop_saves (cfg : SyncConfig) (limit : Option Nat) (pages : List PageResp) :
    ∀ (fst : FetchState) (page : Nat),
      ∃ e, (fetch_projects_loop cfg limit pages fst page).worker.writes =
          fst.worker.writes ++ e ∧
        ∀ w ∈ e, w.isCheckpointSave = true := by
  induction pages with
  | nil =>
    intro fst page
    exact ⟨[], by simp [fetch_projects_loop], by simp⟩
  | cons p rest ih =>
    intro fst page
    cases p with
    | err => exact ⟨[], by simp [fetch_projects_loop], by simp⟩
    | ok projects lastItem =>
      cases projects with
      | nil => exact ⟨[], by simp [fetch_projects_loop], by simp⟩
      | cons q qs =>
        simp only [fetch_projects_loop]
        split
        · exact ⟨[], by simp, by simp⟩
        · split
          · split
            · exact save_checkpoint_ext cfg _ _ _ _ _
            · refine ext_trans ?h1 (ih _ _)
              exact save_checkpoint_ext cfg _ _ _ _ _
          · exact ⟨[], by simp, by simp⟩

/-- The pagination loop never touches the inserted, updated or
details_fetched counters. -/
theorem fetch_loop_counters (cfg : SyncConfig) (limit : Option Nat) (pages : List PageResp) :
    ∀ (fst : FetchState) (page : Nat),
      (fetch_projects_loop cfg limit pages fst page).worker.stats.inserted =
          fst.worker.stats.inserted ∧
      (fetch_projects_loop cfg limit pages fst page).worker.stats.updated =
          fst.worker.stats.updated ∧
      (fetch_projects_loop cfg limit pages fst page).worker.stats.details_fetched =
          fst.worker.stats.details_fetched := by
  induction pages with
  | nil =>
    intro fst page
    exact ⟨rfl, rfl, rfl⟩
  | cons p rest ih =>
    intro fst page
    cases p with
    | err => exact ⟨rfl, rfl, rfl⟩
    | ok projects lastItem =>
      cases projects with
      | nil => exact ⟨rfl, rfl, rfl⟩
      | cons q qs =>
        simp only [fetch_projects_loop]
        split
        · exact ⟨rfl, rfl, rfl⟩
        · split
          · split
            · exact ⟨rfl, rfl, rfl⟩
            · exact ih _ _
          · exact ⟨rfl, rfl, rfl⟩

/-- Under a dry run the pagination loop issues no write at all. -/
theorem fetch_loop_dry_writes (cfg : SyncConfig) (limit : Option Nat)
    (pages : List PageResp) (hdry : cfg.dry_run = true) :
    ∀ (fst : FetchState) (page : Nat),
      (fetch_projects_loop cfg limit pages fst page).worker.writes = fst.worker.writes := by
  induction pages with
  | nil =>
    intro fst page
    rfl
  | cons p rest ih =>
    intro fst page
    cases p with
    | err => rfl
    | ok projects lastItem =>
      cases projects with
      | nil => rfl
      | cons q qs =>
        simp only [fetch_projects_loop]
        split
        · rfl
        · split
          · split
            · simp [save_checkpoint, hdry]
            · rw [ih _ _]
              simp [save_checkpoint, hdry]
          · rfl

/-- `fetch_projects` appends only checkpoint-save writes. -/
theorem fetch_projects_saves (cfg : SyncConfig) (limit : Option Nat)
    (pages : List PageResp) (st : WorkerState) :
    ∃ e, (fetch_projects cfg limit pages st).2.worker.writes = st.writes ++ e ∧
      ∀ w ∈ e, w.isCheckpointSave = true := by
  simp only [fetch_projects]
  split
  · exact ext_trans (fetch_loop_saves cfg limit pages _ _) (save_checkpoint_ext cfg _ _ _ _ _)
  · exact ext_trans (fetch_loop_saves cfg limit pages _ _) (save_checkpoint_ext cfg _ _ _ _ _)

/-- Under a dry run `fetch_projects` issues no write at all. -/
theorem fetch_projects_dry_writes (cfg : SyncConfig) (limit : Option Nat)
    (pages : List PageResp) (st : WorkerState) (hdry : cfg.dry_run = true) :
    (fetch_projects cfg limit pages st).2.worker.writes = st.writes := by
  simp only [fetch_projects]
  split <;>
    simp [save_checkpoint, hdry, fetch_loop_dry_writes cfg limit pages hdry _ _]

/-- `fetch_projects` never touches the inserted, updated or details_fetched
counters. -/
theorem fetch_projects_counters (cfg : SyncConfig) (limit : Option Nat)
    (pages : List PageResp) (st : WorkerState) :
    (fetch_projects cfg limit pages st).2.worker.stats.inserted = st.stats.inserted ∧
    (fetch_projects cfg limit pages st).2.worker.stats.updated = st.stats.updated ∧
    (fetch_projects cfg limit pages st).2.worker.stats.details_fetched =
      st.stats.details_fetched := by
  simp only [fetch_projects]
  split <;> exact fetch_loop_counters cfg limit pages _ _

/-- The write log of a complete run splits into the pagination phase's
checkpoint saves followed by writes none of which is a checkpoint save. -/
theorem run_worker_writes_split (cfg : SyncConfig) (db : DbOracle)
    (oracle : String → Nat → DetailResp) (pages : List PageResp) (tdb : List DbTender)
    (nowS : String) (nowT : Int) (limit dlimit : Option Nat) (fd : Bool) :
    ∃ F R, (run_worker cfg db oracle pages tdb nowS nowT limit dlimit fd).1.writes = F ++ R ∧
      (∀ w ∈ F, w.isCheckpointSave = true) ∧ (∀ w ∈ R, w.isCheckpointSave = false) := by
  obtain ⟨F, hF, hFs⟩ := fetch_projects_saves cfg limit pages WorkerState.init
  have hFeq : (fetch_projects cfg limit pages WorkerState.init).2.worker.writes = F := by
    simpa using hF
  have hMid : ∃ R1,
      (match (fetch_projects cfg limit pages WorkerState.init).1 with
        | [] => (fetch_projects cfg limit pages WorkerState.init).2.worker
        | _ :: _ =>
          update_tender_statuses cfg nowT
            (upsert_tenders cfg db nowS (fetch_projects cfg limit pages WorkerState.init).1
              (fetch_projects cfg limit pages WorkerState.init).2.worker)).writes =
        F ++ R1 ∧ ∀ w ∈ R1, w.isCheckpointSave = false := by
    cases hm : (fetch_projects cfg limit pages WorkerState.init).1 with
    | nil =>
      refine ⟨[], ?_, by simp⟩
      simp [hm, hFeq]
    | cons a l =>
      obtain ⟨e1, he1, hu⟩ :=
        upsert_tenders_ext cfg db nowS (a :: l)
          (fetch_projects cfg limit pages WorkerState.init).2.worker
      obtain ⟨e2, he2, hs⟩ :=
        update_tender_statuses_ext cfg nowT
          (upsert_tenders cfg db nowS (a :: l)
            (fetch_projects cfg limit pages WorkerState.init).2.worker)
      refine ⟨e1 ++ e2, ?_, ?_⟩
      · simp only [hm]
        rw [he2, he1, hFeq, List.append_assoc]
      · intro w hw
        rcases List.mem_append.mp hw with h | h
        · exact upsert_not_save w (hu w h)
        · exact (hs w h).1
  obtain ⟨R1, hR1, hR1n⟩ := hMid
  cases fd with
  | false =>
    refine ⟨F, R1, ?_, hFs, hR1n⟩
    simpa only [run_worker] using hR1
  | true =>
    obtain ⟨R2, hR2, hR2n⟩ :=
      fetch_details_for_tenders_ext cfg oracle nowS dlimit true
        (match (fetch_projects cfg limit pages WorkerState.init).1 with
          | [] => (fetch_projects cfg limit pages WorkerState.init).2.worker
          | _ :: _ =>
            update_tender_statuses cfg nowT
              (upsert_tenders cfg db nowS (fetch_projects cfg limit pages WorkerState.init).1
                (fetch_projects cfg limit pages WorkerState.init).2.worker)) tdb
    refine ⟨F, R1 ++ R2, ?_, hFs, ?_⟩
    · show (fetch_details_for_tenders cfg oracle nowS dlimit true _ tdb).1.writes = _
      rw [hR2, hR1, List.append_assoc]
    · intro w hw
      rcases List.mem_append.mp hw with h | h
      · exact hR1n w h
      · have := hR2n w h
        simp only [Bool.and_eq_true, Bool.not_eq_true'] at this
        exact this.1

/-- Claim C1 (amended): in a run, every checkpoint save happens before every
upsert: the engine saves an `in_progress` checkpoint for each page during
fetching, and upserts all fetched records only after pagination completes, so
a checkpoint with cursor C can exist before the records fetched before C are
upserted. -/
theorem C1_checkpoint_saves_precede_upserts (cfg : SyncConfig) (db : DbOracle)
    (oracle : String → Nat → DetailResp) (pages : List PageResp) (tdb : List DbTender)
    (nowS : String) (nowT : Int) (limit dlimit : Option Nat) (fd : Bool)
    (i j : Nat) (wi wj : DbWrite)
    (hi : (run_worker cfg db oracle pages tdb nowS nowT limit dlimit fd).1.writes[i]? = some wi)
    (hsi : wi.isCheckpointSave = true)
    (hj : (run_worker cfg db oracle pages tdb nowS nowT limit dlimit fd).1.writes[j]? = some wj)
    (huj : wj.isUpsert = true) :
    i < j := by
  obtain ⟨F, R, hsplit, hFs, hRn⟩ :=
    run_worker_writes_split cfg db oracle pages tdb nowS nowT limit dlimit fd
  rw [hsplit] at hi hj
  have hiF : i < F.length := by
    by_contra hge
    push_neg at hge
    rw [List.getElem?_append_right hge] at hi
    have hfalse := hRn wi (List.getElem?_mem hi)
    rw [hfalse] at hsi
    exact absurd hsi (by simp)
  have hjF : F.length ≤ j := by
    by_contra hlt
    push_neg at hlt
    rw [List.getElem?_append_left hlt] at hj
    have htrue := hFs wj (List.getElem?_mem hj)
    have hfalse := upsert_not_save wj huj
    rw [hfalse] at htrue
    exact absurd htrue (by simp)
  omega

/-- Witness for the amended C1 on a concrete live run: the write at index 0
is the `in_progress` checkpoint save and the write at index 2 is the batch
upsert, so index 0 precedes index 2. -/
theorem C1_witness :
    (run_worker cfg_live db_ok oracle404 pages_two [] "T" 0 none none false).1.writes[0]? =
      some (DbWrite.checkpointSave SYNC_STATE_ID (some "c1") CkStatus.in_progress 1) ∧
    (∃ wj, (run_worker cfg_live db_ok oracle404 pages_two [] "T" 0 none none false).1.writes[2]? =
        some wj ∧ wj.isUpsert = true) ∧
    (0:Nat) < 2 := by
  refine ⟨rfl, ⟨_, rfl, rfl⟩, ?_⟩
  exact C1_checkpoint_saves_precede_upserts cfg_live db_ok oracle404 pages_two [] "T" 0
    none none false 0 2 _ _ rfl rfl rfl rfl

/-- Claim C10: with `dry_run` set, no operation writes to the store, and the
inserted, updated and details_fetched counters stay 0 for the whole run. -/
theorem C10_dry_run_no_writes (cfg : SyncConfig) (hdry : cfg.dry_run = true)
    (db : DbOracle) (oracle : String → Nat → DetailResp) (pages : List PageResp)
    (tdb : List DbTender) (nowS : String) (nowT : Int) (limit dlimit : Option Nat)
    (fd om : Bool) (st : WorkerState) (projects : List PyVal) (id : String)
    (cursor : Option String) (ck : CkStatus) (n : Nat) (log : List DbWrite) :
    upsert_tenders cfg db nowS projects st = st ∧
    update_tender_statuses cfg nowT st = st ∧
    fetch_details_for_tenders cfg oracle nowS dlimit om st tdb = (st, tdb) ∧
    save_checkpoint cfg id cursor ck n log = log ∧
    clear_checkpoint cfg id log = log ∧
    (run_worker cfg db oracle pages tdb nowS nowT limit dlimit fd).1.writes = [] ∧
    (run_worker cfg db oracle pages tdb nowS nowT limit dlimit fd).1.stats.inserted = 0 ∧
    (run_worker cfg db oracle pages tdb nowS nowT limit dlimit fd).1.stats.updated = 0 ∧
    (run_worker cfg db oracle pages tdb nowS nowT limit dlimit fd).1.stats.details_fetched = 0 := by
  have hup : ∀ (ps : List PyVal) (s : WorkerState), upsert_tenders cfg db nowS ps s = s := by
    intro ps s
    simp [upsert_tenders, hdry]
  have hst : ∀ s : WorkerState, update_tender_statuses cfg nowT s = s := by
    intro s
    simp [update_tender_statuses, hdry]
  have hfd : ∀ (l : Option Nat) (m : Bool) (s : WorkerState) (t : List DbTender),
      fetch_details_for_tenders cfg oracle nowS l m s t = (s, t) := by
    intro l m s t
    simp [fetch_details_for_tenders, hdry]
  have hrun : (run_worker cfg db oracle pages tdb nowS nowT limit dlimit fd).1 =
      (fetch_projects cfg limit pages WorkerState.init).2.worker := by
    simp only [run_worker]
    cases hm : (fetch_projects cfg limit pages WorkerState.init).1 with
    | nil => cases fd <;> simp [hm, hfd]
    | cons a l => cases fd <;> simp [hm, hup, hst, hfd]
  refine ⟨hup _ _, hst _, hfd _ _ _ _, by simp [save_checkpoint, hdry],
    by simp [clear_checkpoint, hdry], ?_, ?_, ?_, ?_⟩
  · rw [hrun]
    exact fetch_projects_dry_writes cfg limit pages WorkerState.init hdry
  · rw [hrun]
    exact (fetch_projects_counters cfg limit pages WorkerState.init).1
  · rw [hrun]
    exact (fetch_projects_counters cfg limit pages WorkerState.init).2.1
  · rw [hrun]
    exact (fetch_projects_counters cfg limit pages WorkerState.init).2.2

/-- Witness for C10 on a concrete dry run with details enabled. -/
theorem C10_witness :
    SyncConfig.dry_run cfg_dry = true ∧
    (run_worker cfg_dry db_ok oracle404 pages_two [] "T" 0 none none true).1.writes = [] :=
  ⟨rfl,
   (C10_dry_run_no_writes cfg_dry rfl db_ok oracle404 pages_two [] "T" 0 none none
     true true WorkerState.init [] "sid" none CkStatus.completed 0 []).2.2.2.2.2.1⟩

/-- Pagination-loop invariant for the limit: while the accumulated records
stay below a positive limit that the remaining well-formed pages can reach
within the page ceiling, the loop returns exactly the first `l` records of
the stream. -/
theorem fetch_loop_limit_aux (cfg : SyncConfig) (l : Nat) :
    ∀ (pages : List PageResp) (fst : FetchState) (page : Nat),
      0 < l →
      fst.all_projects.length < l →
      l ≤ fst.all_projects.length + (pages.map (fun p => p.projectsOf.length)).sum →
      (∀ p ∈ pages, ∃ ps c, p = PageResp.ok ps c ∧ ps ≠ []) →
      (∀ (i : Nat) (p : PageResp), i + 1 < pages.length → pages[i]? = some p →
        cursorTruthy p.cursorOf = true) →
      page + pages.length ≤ 1001 →
      (fetch_projects_loop cfg (some l) pages fst page).all_projects =
        (fst.all_projects ++ (pages.map PageResp.projectsOf).flatten).take l := by
  intro pages
  induction pages with
  | nil =>
    intro fst page hl hacc hsum hok hcur hpage
    exfalso
    simp only [List.map_nil, List.sum_nil, Nat.add_zero] at hsum
    omega
  | cons p rest ih =>
    intro fst page hl hacc hsum hok hcur hpage
    obtain ⟨ps, c, rfl, hne⟩ := hok p (List.mem_cons_self p rest)
    cases ps with
    | nil => exact absurd rfl hne
    | cons q qs =>
      simp only [fetch_projects_loop]
      by_cases hhit : limit_hit (some l) (fst.all_projects ++ q :: qs).length = true
      · rw [if_pos hhit]
        have hle : l ≤ (fst.all_projects ++ q :: qs).length := by
          unfold limit_hit at hhit
          simp only [Bool.and_eq_true, decide_eq_true_eq] at hhit
          exact hhit.2
        show (fst.all_projects ++ q :: qs).take l = _
        rw [List.map_cons, List.flatten_cons]
        show _ = (fst.all_projects ++ (PageResp.projectsOf (PageResp.ok (q :: qs) c) ++
          (rest.map PageResp.projectsOf).flatten)).take l
        rw [show PageResp.projectsOf (PageResp.ok (q :: qs) c) = q :: qs from rfl]
        rw [← List.append_assoc, List.take_append_of_le_length hle]
      · have hnothit : ¬ (limit_hit (some l) (fst.all_projects ++ q :: qs).length = true) := hhit
        rw [if_neg hnothit]
        have hlt : (fst.all_projects ++ q :: qs).length < l := by
          unfold limit_hit at hhit
          simp only [Bool.and_eq_true, decide_eq_true_eq, not_and, not_le] at hhit
          exact hhit hl
        cases rest with
        | nil =>
          exfalso
          simp only [List.map_cons, List.map_nil, List.sum_cons, List.sum_nil,
            Nat.add_zero] at hsum
          have : PageResp.projectsOf (PageResp.ok (q :: qs) c) = q :: qs := rfl
          rw [this] at hsum
          rw [List.length_append] at hlt
          omega
        | cons r rs =>
          have hcurq : cursorTruthy c = true := by
            have hh := hcur 0 (PageResp.ok (q :: qs) c)
              (by simp) (by simp)
            simpa [PageResp.cursorOf] using hh
          rw [if_pos hcurq]
          rw [if_neg (by
            simp only [List.length_cons] at hpage
            omega)]
          refine (ih _ (page + 1) hl ?ha ?hs ?ho ?hc ?hp).trans ?he
          case ha => exact hlt
          case hs =>
            show l ≤ (fst.all_projects ++ q :: qs).length +
              (List.map (fun p => p.projectsOf.length) (r :: rs)).sum
            rw [List.length_append]
            simp only [List.map_cons, List.sum_cons] at hsum ⊢
            rw [show PageResp.projectsOf (PageResp.ok (q :: qs) c) = q :: qs from rfl] at hsum
            omega
          case ho => exact fun p hp => hok p (List.mem_cons_of_mem _ hp)
          case hc =>
            intro i p hi hp
            exact hcur (i + 1) p (by simpa using Nat.succ_lt_succ hi) (by simpa using hp)
          case hp =>
            simp only [List.length_cons] at hpage ⊢
            omega
          case he =>
            have hfl : (List.map PageResp.projectsOf
                  (PageResp.ok (q :: qs) c :: r :: rs)).flatten =
                (q :: qs) ++ (List.map PageResp.projectsOf (r :: rs)).flatten := by
              rw [List.map_cons, List.flatten_cons]
              rfl
            rw [hfl, ← List.append_assoc]

/-- Claim C7: with a configured positive total-record limit and a source
stream holding at least that many records (well-formed, within the page
ceiling), `fetch_projects` returns exactly the first `limit` records: the
final page is trimmed and pagination stops at the limit. -/
theorem C7_limit_trims (cfg : SyncConfig) (st : WorkerState) (pages : List PageResp)
    (l : Nat)
    (hl : 0 < l)
    (hok : ∀ p ∈ pages, ∃ ps c, p = PageResp.ok ps c ∧ ps ≠ [])
    (hcur : ∀ (i : Nat) (p : PageResp), i + 1 < pages.length → pages[i]? = some p →
      cursorTruthy p.cursorOf = true)
    (hlen : pages.length ≤ 1000)
    (hsum : l ≤ (pages.map (fun p => p.projectsOf.length)).sum) :
    (fetch_projects cfg (some l) pages st).1 =
      (pages.map PageResp.projectsOf).flatten.take l ∧
    (fetch_projects cfg (some l) pages st).1.length = l := by
  have key : (fetch_projects_loop cfg (some l) pages ⟨st, [], none, false⟩ 1).all_projects =
      (([] : List PyVal) ++ (pages.map PageResp.projectsOf).flatten).take l :=
    fetch_loop_limit_aux cfg l pages ⟨st, [], none, false⟩ 1 hl (by simpa using hl)
      (by simpa using hsum) hok hcur (by omega)
  have hpart1 : (fetch_projects cfg (some l) pages st).1 =
      (pages.map PageResp.projectsOf).flatten.take l := by
    simp only [fetch_projects]
    split <;> simpa using key
  refine ⟨hpart1, ?_⟩
  have hflat : (pages.map PageResp.projectsOf).flatten.length =
      (pages.map (fun p => p.projectsOf.length)).sum := by
    rw [List.length_flatten, List.map_map]
    rfl
  rw [hpart1, List.length_take, hflat]
  exact Nat.min_eq_left hsum

/-- Witness for C7: a two-page stream of four records with limit 3 yields
exactly the first three records. -/
theorem C7_witness :
    (fetch_projects cfg_live (some 3) pages_lim WorkerState.init).1 =
      (pages_lim.map PageResp.projectsOf).flatten.take 3 ∧
    (fetch_projects cfg_live (some 3) pages_lim WorkerState.init).1.length = 3 :=
  C7_limit_trims cfg_live WorkerState.init pages_lim 3 (by omega)
    (by
      intro p hp
      simp only [pages_lim, List.mem_cons, List.mem_singleton] at hp
      rcases hp with rfl | hp
      · exact ⟨_, _, rfl, by simp⟩
      · rcases hp with rfl | hfalse
        · exact ⟨_, _, rfl, by simp⟩
        · exact absurd hfalse (List.not_mem_nil p))
    (by
      intro i p hi hp
      cases i with
      | zero =>
        simp only [pages_lim] at hp
        rw [show ([PageResp.ok [PyVal.str "a", PyVal.str "b"] (some "c1"),
          PageResp.ok [PyVal.str "c", PyVal.str "d"] (some "c2")][(0:Nat)]? =
            some (PageResp.ok [PyVal.str "a", PyVal.str "b"] (some "c1"))) from rfl] at hp
        cases hp
        rfl
      | succ n =>
        simp only [pages_lim, List.length_cons, List.length_nil] at hi
        omega)
    (by simp [pages_lim])
    (by simp [pages_lim, PageResp.projectsOf])

end SimapSync
